import Mathlib

/-!
Verification of the samples view-state reducer
(src/client/src/js/samples/reducer.js) and of the drag-and-drop `reorder`
helper (src/unnamed/part_004) of the virtool client.

The reducer delegates its document-store cases to the helpers
`updateDocuments`, `insert`, `update` and `remove` imported from
`../utils/reducers`; that module is not among the provided sources, so those
four helpers are modelled from the specification (sections 4.1, 4.2 and 5)
and are marked as such in their doc comments.  Everything else is translated
directly from the source files.
-/

namespace Virtool

/-- A JavaScript object is embedded as an association list from field names
to string values.  Field lookup takes the first matching entry, so the JS
object spread, which lets later objects override earlier ones, is embedded
as prepending the overriding entries. -/
abbrev Obj := List (String × String)

/-- Field lookup on an embedded JS object: the first entry with the given
key wins. -/
def objGet (o : Obj) (k : String) : Option String :=
  (o.find? (fun p => p.1 == k)).map (fun p => p.2)

/-- JS object spread: the fields of `b` override the fields of `a`
(first-match lookup, so the entries of `b` come first). -/
def objSpread (a b : Obj) : Obj := b ++ a

/-- The identifier field name of a domain document. -/
def idKey : String := "id"

/-- The creation-timestamp field name used to sort inserted samples
(reducer.js line 37 passes it to the insert helper). -/
def createdAtKey : String := "created_at"

/-- A domain document: a stable unique identifier together with the
remaining, domain-specific fields (spec section 3). -/
structure Doc where
  id : String
  attrs : Obj
deriving DecidableEq

/-- The payload of a successful FIND_SAMPLES query response
(spec section 6: page, counts, documents and the echoed search term). -/
structure QueryResult where
  documents : List Doc
  term : String
  page : Nat
  totalDocumentCount : Nat
  totalPageCount : Nat
deriving DecidableEq

/-- The samples slice of the store (reducer.js lines 20 to 32), extended
with the Pagination Envelope counts and the optional fixed page size that
the spec attaches to the document store (sections 3 and 4.1). -/
structure SamplesState where
  documents : Option (List Doc)
  term : String
  page : Nat
  totalDocumentCount : Nat
  totalPageCount : Nat
  perPage : Option Nat
  detail : Option Obj
  readFiles : Option (List Obj)
  showEdit : Bool
  showRemove : Bool
  editError : Bool
  reservedFiles : List String
  readyHosts : Option (List Obj)
  selected : List String
deriving DecidableEq

/-- The initial state of the samples reducer (reducer.js lines 20 to 32);
the modelled envelope counts start at zero and no page bound is set. -/
def initialState : SamplesState where
  documents := none
  term := ""
  page := 0
  totalDocumentCount := 0
  totalPageCount := 0
  perPage := none
  detail := none
  readFiles := none
  showEdit := false
  showRemove := false
  editError := false
  reservedFiles := []
  readyHosts := none
  selected := []

/-- The actions the samples reducer switches on (reducer.js lines 2 to 17),
with one extra constructor `unhandled` standing for every action type that
reaches the default branch of the switch. -/
inductive SampleAction where
  | wsInsertSample (payload : Doc)
  | wsUpdateSample (documentId : String) (payload : Obj)
  | wsRemoveSample (documentId : String)
  | findSamplesRequested (term : String)
  | findSamplesSucceeded (data : QueryResult)
  | findReadFilesSucceeded (documents : List Obj)
  | findReadyHostsSucceeded (documents : List Obj)
  | getSampleRequested
  | getSampleSucceeded (data : Obj)
  | updateSampleSucceeded (data : Obj)
  | updateSampleRightsSucceeded (data : Obj)
  | removeSampleSucceeded
  | showRemoveSample
  | hideSampleModal
  | selectSample (sampleId : String)
  | clearSampleSelection
  | unhandled (type : String)
deriving DecidableEq

/-- lodash `xor` specialised to the two-array call of reducer.js line 81:
the deduplicated values present in exactly one of the two arrays (the
symmetric difference). -/
def lodashXor (a b : List String) : List String :=
  ((a.filter (fun x => decide (x ∉ b))) ++ (b.filter (fun x => decide (x ∉ a)))).dedup

/-- Boolean string comparison used to order documents by a sort field. -/
def strLe (a b : String) : Bool := a == b || decide (a < b)

/-- Comparison of optional sort keys: a document missing the sort field
sorts first. -/
def keyLe (a b : Option String) : Bool :=
  match a, b with
  | none, _ => true
  | some _, none => false
  | some x, some y => strLe x y

/-- Modelled from the spec: the sorted-position insertion used by the Push
Merge Operator (section 4.1) of the absent utils/reducers module.  The new
document is placed at the position determined by its sort field, ascending
or descending per the flag. -/
def insertSorted (sortField : String) (sortAscending : Bool) (doc : Doc) :
    List Doc → List Doc
  | [] => [doc]
  | d :: ds =>
    let before :=
      if sortAscending then keyLe (objGet doc.attrs sortField) (objGet d.attrs sortField)
      else keyLe (objGet d.attrs sortField) (objGet doc.attrs sortField)
    if before then doc :: d :: ds
    else d :: insertSorted sortField sortAscending doc ds

/-- Shallow-merge a payload into the document carrying the given
identifier, preserving every position (spec section 4.1: update never
re-sorts). -/
def mergeById (docs : List Doc) (documentId : String) (payload : Obj) : List Doc :=
  docs.map (fun d =>
    if d.id == documentId then { d with attrs := objSpread d.attrs payload } else d)

/-- Modelled from the spec: the `insert` helper of the absent utils/reducers
module (section 4.1).  An identifier already present makes the event an
update; otherwise the payload is inserted at its sorted position, the total
count grows by one, and when a fixed page size would overflow the last
element is evicted.  A store that was never loaded is left untouched. -/
def insert (state : SamplesState) (payload : Doc) (sortField : String)
    (sortAscending : Bool) : SamplesState :=
  match state.documents with
  | none => state
  | some docs =>
    if docs.any (fun d => d.id == payload.id) then
      { state with documents := some (mergeById docs payload.id payload.attrs) }
    else
      let inserted := insertSorted sortField sortAscending payload docs
      let bounded :=
        match state.perPage with
        | some n => if n < inserted.length then inserted.dropLast else inserted
        | none => inserted
      { state with
          documents := some bounded
          totalDocumentCount := state.totalDocumentCount + 1 }

/-- Modelled from the spec: the `update` helper of the absent utils/reducers
module (section 4.1).  The payload is shallow-merged into the entry with the
matching identifier in place; an absent identifier makes the event a
no-op on the sequence. -/
def update (state : SamplesState) (documentId : String) (payload : Obj) :
    SamplesState :=
  match state.documents with
  | none => state
  | some docs => { state with documents := some (mergeById docs documentId payload) }

/-- Modelled from the spec: the `remove` helper of the absent utils/reducers
module (sections 4.1 and its detail-slot edge case).  The document with the
matching identifier is deleted and the total count decremented (floored at
zero); an absent identifier is a no-op on the sequence.  A removal whose
identifier matches the currently open detail clears the detail slot. -/
def remove (state : SamplesState) (documentId : String) : SamplesState :=
  let detailAfter :=
    match state.detail with
    | some d => if objGet d idKey == some documentId then none else some d
    | none => none
  match state.documents with
  | none => { state with detail := detailAfter }
  | some docs =>
    if docs.any (fun d => d.id == documentId) then
      { state with
          documents := some (docs.filter (fun d => !(d.id == documentId)))
          totalDocumentCount := state.totalDocumentCount - 1
          detail := detailAfter }
    else { state with detail := detailAfter }

/-- Modelled from the spec: the `updateDocuments` helper of the absent
utils/reducers module (sections 4.2 and 5).  A stale response, whose echoed
term or page does not match the ones recorded in the Pagination Envelope, is
discarded silently; otherwise the documents and the envelope are replaced
wholesale from the response. -/
def updateDocuments (state : SamplesState) (data : QueryResult) : SamplesState :=
  if data.term == state.term && data.page == state.page then
    { state with
        documents := some data.documents
        term := data.term
        page := data.page
        totalDocumentCount := data.totalDocumentCount
        totalPageCount := data.totalPageCount }
  else state

/-- The samples reducer (reducer.js lines 34 to 93), one case per handled
action type, the default branch returning the state unchanged. -/
def samplesReducer (state : SamplesState) (action : SampleAction) : SamplesState :=
  match action with
  | .wsInsertSample payload => insert state payload createdAtKey true
  | .wsUpdateSample documentId payload => update state documentId payload
  | .wsRemoveSample documentId => remove state documentId
  | .findSamplesRequested term => { state with term := term }
  | .findSamplesSucceeded data => updateDocuments state data
  | .findReadFilesSucceeded documents => { state with readFiles := some documents }
  | .findReadyHostsSucceeded documents => { state with readyHosts := some documents }
  | .getSampleRequested => { state with detail := none }
  | .getSampleSucceeded data => { state with detail := some data }
  | .updateSampleSucceeded data =>
      { state with detail := some (objSpread (state.detail.getD []) data) }
  | .updateSampleRightsSucceeded data =>
      { state with detail := some (objSpread (state.detail.getD []) data) }
  | .removeSampleSucceeded => { state with detail := none }
  | .showRemoveSample => { state with showRemove := true }
  | .hideSampleModal => { state with showRemove := false }
  | .selectSample sampleId =>
      { state with selected := lodashXor state.selected [sampleId] }
  | .clearSampleSelection => { state with selected := [] }
  | .unhandled _ => state

/-- The identifiers of the currently loaded document sequence. -/
def docIds (s : SamplesState) : List String := (s.documents.getD []).map (fun d => d.id)

/-- Whether an action is one of the three websocket push events. -/
def isPush : SampleAction → Bool
  | .wsInsertSample _ => true
  | .wsUpdateSample _ _ => true
  | .wsRemoveSample _ => true
  | _ => false

/-- JS `Array.splice(n, 0, x)` insertion: `x` is placed before position `n`,
or appended when `n` is past the end of the array. -/
def spliceInsert {α : Type} (l : List α) (n : Nat) (x : α) : List α :=
  l.take n ++ x :: l.drop n

/-- The `reorder` helper of src/unnamed/part_004 (lines 21 to 27): copy the
list, splice out the element at `startIndex`, splice it back in before
`endIndex`.  The JS corner case of an out-of-range `startIndex`, where
`splice` removes nothing and `undefined` is inserted, has no counterpart
here: in that case only the (no-op) removal is modelled. -/
def reorder {α : Type} (l : List α) (startIndex endIndex : Nat) : List α :=
  match l[startIndex]? with
  | some removed => spliceInsert (l.eraseIdx startIndex) endIndex removed
  | none => l.eraseIdx startIndex

/-- A field name used in concrete examples. -/
def nameKey : String := "name"

/-- A concrete open detail record, as in the scenario of spec section 8. -/
def exDetail : Obj := [(idKey, ("9")), (nameKey, ("x"))]

/-- A concrete state whose detail slot holds `exDetail`. -/
def exDetailState : SamplesState := { initialState with detail := some exDetail }

/-- A concrete partial-update payload overriding the name field only. -/
def exPayload : Obj := [(nameKey, ("y"))]

/-- A concrete state that has requested the term foo on page 1. -/
def exEnvelopeState : SamplesState :=
  { initialState with
      term := ("foo")
      page := 1
      documents := some [{ id := ("a"), attrs := [] }] }

/-- A concrete query response echoing a different term than the one the
envelope of `exEnvelopeState` holds. -/
def exStaleQuery : QueryResult where
  documents := []
  term := ("bar")
  page := 1
  totalDocumentCount := 0
  totalPageCount := 0

/-- A concrete state with an empty (but loaded) document sequence. -/
def exEmpty : SamplesState := { initialState with documents := some [] }

/-- A concrete sequence of push events exercising insert, duplicate insert,
update and remove. -/
def exEvents : List SampleAction :=
  [.wsInsertSample { id := ("b"), attrs := [(createdAtKey, ("2"))] },
   .wsInsertSample { id := ("a"), attrs := [(createdAtKey, ("1"))] },
   .wsInsertSample { id := ("a"), attrs := [(nameKey, ("z"))] },
   .wsUpdateSample ("a") [(nameKey, ("w"))],
   .wsRemoveSample ("b")]

/-- A concrete list for exercising `reorder`. -/
def exList : List Nat := [0, 1, 2, 3]

/-! Theorems.  Each claim of the specification review is settled by exactly
one theorem below; theorems whose statements carry hypotheses come with a
closed witness instantiating them at concrete inputs. -/

/-- C9: an action whose type is none of the ones handled by the samples
reducer leaves the state unchanged; the reducer is the identity on
unrecognized events (the default branch of the switch). -/
theorem samplesReducer_default (s : SamplesState) (t : String) :
    samplesReducer s (.unhandled t) = s := rfl

/-- C7: a query-request event updates only the filter term; the resulting
state is the old one with the term replaced, so the document sequence, the
detail slot, the selection set and every other field (the page field
included) are unchanged and the stale documents stay visible until the
response arrives. -/
theorem findRequested_frame (s : SamplesState) (t : String) :
    samplesReducer s (.findSamplesRequested t) = { s with term := t }
    ∧ (samplesReducer s (.findSamplesRequested t)).documents = s.documents
    ∧ (samplesReducer s (.findSamplesRequested t)).detail = s.detail
    ∧ (samplesReducer s (.findSamplesRequested t)).selected = s.selected
    ∧ (samplesReducer s (.findSamplesRequested t)).page = s.page :=
  ⟨rfl, rfl, rfl, rfl, rfl⟩

/-- C1: a query-success event whose echoed term or page does not match the
term and page held by the Pagination Envelope is discarded, leaving the
state unchanged (stale responses are dropped silently). -/
theorem findSucceeded_discards_stale (s : SamplesState) (data : QueryResult)
    (h : ¬(data.term = s.term ∧ data.page = s.page)) :
    samplesReducer s (.findSamplesSucceeded data) = s := by
  simp only [samplesReducer, updateDocuments]
  rw [if_neg]
  simpa using h

/-- Witness for C1 at a concrete envelope and a concrete stale response. -/
theorem findSucceeded_discards_stale_witness :
    ¬(exStaleQuery.term = exEnvelopeState.term ∧ exStaleQuery.page = exEnvelopeState.page)
    ∧ samplesReducer exEnvelopeState (.findSamplesSucceeded exStaleQuery) = exEnvelopeState :=
  ⟨by decide, findSucceeded_discards_stale exEnvelopeState exStaleQuery (by decide)⟩

/-- Inserting with `insertSorted` permutes the document onto the front of
the list: the result holds exactly the old documents plus the new one. -/
theorem insertSorted_perm (sortField : String) (sortAscending : Bool) (doc : Doc) :
    ∀ l : List Doc, List.Perm (insertSorted sortField sortAscending doc l) (doc :: l)
  | [] => List.Perm.refl _
  | d :: ds => by
    simp only [insertSorted]
    split <;> split <;>
      first
      | exact List.Perm.refl _
      | exact ((insertSorted_perm sortField sortAscending doc ds).cons d).trans
          (List.Perm.swap doc d ds)

/-- Merging a payload into the document with a given identifier changes no
identifier in the sequence. -/
theorem mergeById_ids (docs : List Doc) (documentId : String) (payload : Obj) :
    (mergeById docs documentId payload).map (fun d => d.id)
      = docs.map (fun d => d.id) := by
  simp only [mergeById, List.map_map]
  refine List.map_congr_left ?_
  intro d _
  dsimp only [Function.comp]
  split <;> rfl

/-- A single push event preserves distinctness of the identifiers in the
document sequence. -/
theorem push_preserves_nodup (s : SamplesState) (a : SampleAction)
    (ha : isPush a = true) (h : (docIds s).Nodup) :
    (docIds (samplesReducer s a)).Nodup := by
  cases a with
  | wsInsertSample payload =>
    cases hdocs : s.documents with
    | none => simpa [samplesReducer, insert, hdocs] using h
    | some docs =>
      rw [docIds, hdocs] at h
      by_cases hany : docs.any (fun d => d.id == payload.id)
      · simpa [samplesReducer, insert, hdocs, hany, docIds, mergeById_ids] using h
      · have hmem : payload.id ∉ docs.map (fun d => d.id) := by
          intro hx
          rcases List.mem_map.mp hx with ⟨d, hdmem, hdid⟩
          exact hany (List.any_eq_true.mpr ⟨d, hdmem, by simp [hdid]⟩)
        have hperm : List.Perm
            ((insertSorted createdAtKey true payload docs).map (fun d => d.id))
            (payload.id :: docs.map (fun d => d.id)) := by
          have := (insertSorted_perm createdAtKey true payload docs).map (fun d => d.id)
          simpa using this
        have hnodup : ((insertSorted createdAtKey true payload docs).map
            (fun d => d.id)).Nodup :=
          hperm.nodup_iff.mpr (List.nodup_cons.mpr ⟨hmem, h⟩)
        simp only [samplesReducer, insert, hdocs, hany, Bool.false_eq_true, if_false]
        cases hpp : s.perPage with
        | none => simpa [docIds, hpp] using hnodup
        | some n =>
          by_cases hlen : n < (insertSorted createdAtKey true payload docs).length
          · have hsub : ((insertSorted createdAtKey true payload docs).dropLast.map
                (fun d => d.id)).Sublist
                ((insertSorted createdAtKey true payload docs).map (fun d => d.id)) :=
              (List.dropLast_sublist (insertSorted createdAtKey true payload docs)).map
                (fun d : Doc => d.id)
            simpa [docIds, hpp, hlen] using hnodup.sublist hsub
          · simpa [docIds, hpp, hlen] using hnodup
  | wsUpdateSample documentId payload =>
    cases hdocs : s.documents with
    | none => simpa [samplesReducer, update, hdocs] using h
    | some docs =>
      rw [docIds, hdocs] at h
      simpa [samplesReducer, update, hdocs, docIds, mergeById_ids] using h
  | wsRemoveSample documentId =>
    cases hdocs : s.documents with
    | none => simp [samplesReducer, remove, hdocs, docIds]
    | some docs =>
      rw [docIds, hdocs] at h
      by_cases hany : docs.any (fun d => d.id == documentId)
      · have hsub : ((docs.filter (fun d => !(d.id == documentId))).map
            (fun d => d.id)).Sublist (docs.map (fun d => d.id)) :=
          (List.filter_sublist docs).map (fun d => d.id)
        simpa [samplesReducer, remove, hdocs, hany, docIds] using h.sublist hsub
      · simpa [samplesReducer, remove, hdocs, hany, docIds] using h
  | _ => simp [isPush] at ha

/-- A whole sequence of push events preserves distinctness of the
identifiers in the document sequence. -/
theorem pushList_preserves_nodup :
    ∀ (events : List SampleAction) (s : SamplesState),
      (∀ e ∈ events, isPush e = true) → (docIds s).Nodup →
      (docIds (events.foldl samplesReducer s)).Nodup
  | [], _, _, h => h
  | e :: es, s, hp, h =>
    pushList_preserves_nodup es (samplesReducer s e)
      (fun x hx => hp x (List.mem_cons_of_mem e hx))
      (push_preserves_nodup s e (hp e (List.mem_cons_self e es)) h)

/-- C2: any finite sequence of Insert, Update and Remove push events applied
by the reducer, starting from a state whose document sequence is empty,
yields a document sequence in which no two documents share an
identifier. -/
theorem samplesReducer_push_no_duplicates (events : List SampleAction)
    (s : SamplesState) (hdocs : s.documents = some [])
    (hpush : ∀ e ∈ events, isPush e = true) :
    (docIds (events.foldl samplesReducer s)).Nodup :=
  pushList_preserves_nodup events s hpush (by simp [docIds, hdocs])

/-- Witness for C2 on a concrete event sequence containing an insert, a
duplicate insert, an update and a removal. -/
theorem samplesReducer_push_no_duplicates_witness :
    exEmpty.documents = some []
    ∧ exEvents.all isPush = true
    ∧ (docIds (exEvents.foldl samplesReducer exEmpty)).Nodup :=
  ⟨rfl, by decide, samplesReducer_push_no_duplicates exEvents exEmpty rfl (by decide)⟩

/-- Membership in the two-array lodash xor is membership in exactly one of
the two arrays. -/
theorem mem_lodashXor {a b : List String} {x : String} :
    x ∈ lodashXor a b ↔ ((x ∈ a ∧ x ∉ b) ∨ (x ∈ b ∧ x ∉ a)) := by
  simp [lodashXor, List.mem_dedup, List.mem_append, List.mem_filter]

/-- C3: the selection-toggle operation computes the symmetric difference of
the selection set with the singleton of the toggled identifier (present
means removed, absent means added), and toggling the same identifier twice
in succession returns the Selection Tracker to its original set. -/
theorem selectSample_symmDiff (s : SamplesState) (id x : String) :
    (x ∈ (samplesReducer s (.selectSample id)).selected ↔
      ((x ∈ s.selected ∧ x ≠ id) ∨ (x = id ∧ x ∉ s.selected)))
    ∧ (x ∈ (samplesReducer (samplesReducer s (.selectSample id)) (.selectSample id)).selected
        ↔ x ∈ s.selected) := by
  constructor
  · simp only [samplesReducer, mem_lodashXor, List.mem_singleton]
  · simp only [samplesReducer, mem_lodashXor, List.mem_singleton]
    by_cases hx : x = id <;> by_cases hm : x ∈ s.selected <;> simp [hx, hm]

/-- C4: a websocket Remove event whose identifier equals the identifier of
the document held in the detail slot clears the detail slot to empty (not
to an error state): the open record disappeared. -/
theorem wsRemoveSample_clears_detail (s : SamplesState) (d : Obj) (documentId : String)
    (hd : s.detail = some d) (hid : objGet d idKey = some documentId) :
    (samplesReducer s (.wsRemoveSample documentId)).detail = none := by
  simp only [samplesReducer, remove, hd, hid, beq_self_eq_true, if_true]
  cases s.documents with
  | none => rfl
  | some docs => split <;> first | rfl | (split <;> rfl)

/-- Witness for C4 on the concrete detail record with identifier nine. -/
theorem wsRemoveSample_clears_detail_witness :
    exDetailState.detail = some exDetail
    ∧ objGet exDetail idKey = some (("9"))
    ∧ (samplesReducer exDetailState (.wsRemoveSample (("9")))).detail = none :=
  ⟨rfl, rfl, wsRemoveSample_clears_detail exDetailState exDetail (("9")) rfl rfl⟩

/-- C5 counterexample: at a concrete state whose detail slot is occupied,
the value the remove-succeeded event stores in the detail slot is the very
value the fetch-requested event uses as its loading sentinel (both are
none), so the claimed distinction between the two does not exist in the
code. -/
theorem removeSucceeded_detail_not_distinct :
    (samplesReducer exDetailState .removeSampleSucceeded).detail
      = (samplesReducer exDetailState .getSampleRequested).detail
    ∧ (samplesReducer exDetailState .removeSampleSucceeded).detail = none := ⟨rfl, rfl⟩

/-- C5 (amended): the remove-succeeded event sets the detail slot to the
empty value none; this is the same value the fetch-requested event writes
as its loading sentinel, so the two conditions are not distinguishable by
the detail slot alone. -/
theorem removeSucceeded_clears_detail (s : SamplesState) :
    (samplesReducer s .removeSampleSucceeded).detail = none
    ∧ (samplesReducer s .getSampleRequested).detail = none :=
  ⟨rfl, rfl⟩

/-- C6: a query-success replacement of the Document Store leaves the
selection set unchanged, so every identifier selected before the
replacement is still selected after it, even when its document no longer
appears in the new page. -/
theorem findSucceeded_preserves_selection (s : SamplesState) (data : QueryResult) :
    (samplesReducer s (.findSamplesSucceeded data)).selected = s.selected := by
  simp only [samplesReducer, updateDocuments]
  split <;> rfl

/-- Field lookup after an object spread prefers the overriding object and
falls back to the overridden one. -/
theorem objGet_objSpread (a b : Obj) (k : String) :
    objGet (objSpread a b) k = (objGet b k).or (objGet a k) := by
  simp only [objGet, objSpread, List.find?_append]
  cases b.find? (fun p => p.1 == k) <;> simp [Option.or]

/-- C8: with a non-empty detail slot, a partial-update success event (sample
update as well as rights update) shallow-merges its payload into the
detail record: a field named in the payload takes the payload value, and a
field of the old detail not named in the payload keeps its previous
value. -/
theorem updateSucceeded_shallow_merges (s : SamplesState) (d payload : Obj)
    (hd : s.detail = some d) :
    (samplesReducer s (.updateSampleSucceeded payload)).detail = some (objSpread d payload)
    ∧ (samplesReducer s (.updateSampleRightsSucceeded payload)).detail
        = some (objSpread d payload)
    ∧ (∀ k v, objGet payload k = some v → objGet (objSpread d payload) k = some v)
    ∧ ∀ k, objGet payload k = none → objGet (objSpread d payload) k = objGet d k := by
  refine ⟨by simp [samplesReducer, hd], by simp [samplesReducer, hd], ?_, ?_⟩
  · intro k v hk
    rw [objGet_objSpread, hk]
    rfl
  · intro k hk
    rw [objGet_objSpread, hk]
    rfl

/-- Witness for C8: merging a payload that renames the record keeps the
identifier field of the old detail and overrides the name field. -/
theorem updateSucceeded_shallow_merges_witness :
    exDetailState.detail = some exDetail
    ∧ (samplesReducer exDetailState (.updateSampleSucceeded exPayload)).detail
        = some (objSpread exDetail exPayload)
    ∧ objGet (objSpread exDetail exPayload) nameKey = some (("y"))
    ∧ objGet (objSpread exDetail exPayload) idKey = objGet exDetail idKey :=
  ⟨rfl,
   (updateSucceeded_shallow_merges exDetailState exDetail exPayload rfl).1,
   (updateSucceeded_shallow_merges exDetailState exDetail exPayload rfl).2.2.1 nameKey (("y")) rfl,
   (updateSucceeded_shallow_merges exDetailState exDetail exPayload rfl).2.2.2 idKey rfl⟩

/-- Splicing an element into a list permutes it onto the front. -/
theorem spliceInsert_perm {α : Type} (l : List α) (n : Nat) (x : α) :
    List.Perm (spliceInsert l n x) (x :: l) := by
  have h : List.Perm (l.take n ++ x :: l.drop n) (x :: (l.take n ++ l.drop n)) :=
    List.perm_middle
  simpa [spliceInsert] using h

/-- For an in-range position the JS splice insertion agrees with
`List.insertIdx`. -/
theorem spliceInsert_eq_insertIdx {α : Type} :
    ∀ (l : List α) (n : Nat) (x : α), n ≤ l.length →
      spliceInsert l n x = l.insertIdx n x
  | _, 0, _, _ => by simp [spliceInsert]
  | [], n + 1, _, h => by simp at h
  | a :: t, n + 1, x, h => by
    simp only [spliceInsert, List.take_succ_cons, List.drop_succ_cons,
      List.insertIdx_succ_cons, List.cons_append, List.cons.injEq, true_and]
    exact spliceInsert_eq_insertIdx t n x (by simpa using h)

/-- A list is a permutation of its element at a valid index consed onto the
list with that index erased. -/
theorem getElem_cons_eraseIdx_perm {α : Type} :
    ∀ (l : List α) (i : Nat) (h : i < l.length),
      List.Perm l (l[i] :: l.eraseIdx i)
  | _ :: _, 0, _ => List.Perm.refl _
  | a :: t, i + 1, h => by
    have hi : i < t.length := by simpa using h
    have ih := getElem_cons_eraseIdx_perm t i hi
    have hsw := (ih.cons a).trans (List.Perm.swap t[i] a (t.eraseIdx i))
    simpa using hsw

/-- The spliced-in element sits at the position it was spliced in at. -/
theorem spliceInsert_getElem? {α : Type} (l : List α) (n : Nat) (x : α)
    (h : n ≤ l.length) :
    (spliceInsert l n x)[n]? = some x := by
  have hlen : (l.take n).length = n := by simp [List.length_take, Nat.min_eq_left h]
  rw [spliceInsert, List.getElem?_append_right (by omega)]
  simp [hlen]

/-- C10: for valid start and end indices, the segment reorder operation
returns a list of the same length that is a permutation of the input, the
element previously at the start index now sits at the end index, and the
relative order of all other elements is preserved (erasing the moved
element from its new position gives the same list as erasing it from its
old one). -/
theorem reorder_spec {α : Type} (l : List α) (s e : Nat)
    (hs : s < l.length) (he : e < l.length) :
    (reorder l s e).length = l.length
    ∧ List.Perm (reorder l s e) l
    ∧ (reorder l s e)[e]? = l[s]?
    ∧ (reorder l s e).eraseIdx e = l.eraseIdx s := by
  have hget : l[s]? = some l[s] := List.getElem?_eq_getElem hs
  have hred : reorder l s e = spliceInsert (l.eraseIdx s) e l[s] := by
    rw [reorder, hget]
  have hm : (l.eraseIdx s).length + 1 = l.length := List.length_eraseIdx_add_one hs
  have he' : e ≤ (l.eraseIdx s).length := by omega
  refine ⟨?_, ?_, ?_, ?_⟩
  · rw [hred]
    simp only [spliceInsert, List.length_append, List.length_cons, List.length_take,
      List.length_drop]
    omega
  · rw [hred]
    exact (spliceInsert_perm (l.eraseIdx s) e l[s]).trans
      (getElem_cons_eraseIdx_perm l s hs).symm
  · rw [hred, hget, spliceInsert_getElem? (l.eraseIdx s) e l[s] he']
  · rw [hred, spliceInsert_eq_insertIdx (l.eraseIdx s) e l[s] he',
      List.eraseIdx_insertIdx e (l.eraseIdx s)]

/-- Witness for C10: moving the element at index one of a concrete
four-element list to index three. -/
theorem reorder_spec_witness :
    1 < exList.length ∧ 3 < exList.length
    ∧ (reorder exList 1 3).length = exList.length
    ∧ List.Perm (reorder exList 1 3) exList
    ∧ (reorder exList 1 3)[3]? = exList[1]?
    ∧ (reorder exList 1 3).eraseIdx 3 = exList.eraseIdx 1 :=
  ⟨by decide, by decide, reorder_spec exList 1 3 (by decide) (by decide)⟩

end Virtool
